import Mathlib

/-!
Verification development for the HelloInterview crawler (crawler.js).

The JavaScript source is shallowly embedded: in-page text processing is
modeled on lists of characters, the DOM of a loaded page is modeled as a
flat list of elements with the attributes the selectors inspect, and the
orchestration loops (retry, multi-page crawl, navigation crawl) are modeled
as pure recursive functions parameterized by an oracle giving the outcome
of each network attempt.  Timing (timeouts, settle delays) is abstracted:
a page is modeled at the state it has once loading finished, so a selector
wait succeeds exactly when the selector is present in that state.
-/

namespace Crawler

/-! ## Whitespace and basic string machinery

Models JavaScript string semantics on lists of characters.  `isWs` models
the regex class backslash-s on the ASCII range used by the site's text. -/

/-- Whitespace recognizer modeling the JS regex whitespace class. -/
def isWs (c : Char) : Bool :=
  c = ' ' || c = '\t' || c = '\n' || c = '\r' || c = '\x0b' || c = '\x0c'

/-- begWith m s is true when the list m occurs at the very beginning of s. -/
def begWith : List Char → List Char → Bool
  | [], _ => true
  | _ :: _, [] => false
  | a :: m, b :: s => a == b && begWith m s

/-- containsSub m s is true when m occurs contiguously anywhere inside s. -/
def containsSub (m : List Char) : List Char → Bool
  | [] => m.isEmpty
  | c :: t => begWith m (c :: t) || containsSub m t

/-- PrefOf p l: p is an initial segment of l. -/
def PrefOf (p l : List Char) : Prop := ∃ t, p ++ t = l

/-- InfOf m l: m occurs contiguously inside l. -/
def InfOf (m l : List Char) : Prop := ∃ u v, u ++ m ++ v = l

/-- Model of the first half of cleanText, the JS replace of every maximal
whitespace run by a single space character. -/
def squeezeWs : List Char → List Char
  | [] => []
  | [c] => if isWs c then [' '] else [c]
  | a :: b :: t =>
    if isWs a && isWs b then squeezeWs (b :: t)
    else (if isWs a then ' ' else a) :: squeezeWs (b :: t)

/-- Left half of JS String.trim: drop leading whitespace. -/
def trimLeftWs (s : List Char) : List Char := s.dropWhile isWs

/-- Right half of JS String.trim: drop trailing whitespace. -/
def trimRightWs : List Char → List Char
  | [] => []
  | c :: s =>
    match trimRightWs s with
    | [] => if isWs c then [] else [c]
    | t => c :: t

/-- cleanText from extractPageInfo: text.replace(whitespace-run, one space).trim(). -/
def cleanText (s : List Char) : List Char := trimRightWs (trimLeftWs (squeezeWs s))

/-- String-level wrapper of cleanText. -/
def cleanTextS (s : String) : String := ⟨cleanText s.data⟩

/-- Every whitespace character of the list is a plain space. -/
def wsOnlySpace (s : List Char) : Bool := s.all (fun c => !isWs c || c == ' ')

/-- No two adjacent characters are both whitespace. -/
def noAdjWs : List Char → Bool
  | a :: b :: t => (!isWs a || !isWs b) && noAdjWs (b :: t)
  | _ => true

/-- The first character, when present, is not whitespace. -/
def headOk : List Char → Bool
  | [] => true
  | c :: _ => !isWs c

/-- The last character, when present, is not whitespace. -/
def lastOk : List Char → Bool
  | [] => true
  | [c] => !isWs c
  | _ :: b :: t => lastOk (b :: t)

/-- A text is whitespace-collapsed: all whitespace is single interior spaces. -/
def collapsedB (s : List Char) : Bool :=
  wsOnlySpace s && noAdjWs s && headOk s && lastOk s

/-! ## JS String.split on a whitespace regex

Models s.split(whitespace-run regex): tokens between maximal whitespace
runs, with an empty leading token when the string starts with whitespace,
an empty trailing token when it ends with whitespace, and a single empty
token for the empty string. -/

mutual

/-- Split worker: currently inside a token whose characters are in cur, reversed. -/
def jsSplitGo (cur : List Char) : List Char → List (List Char)
  | [] => [cur.reverse]
  | c :: t => if isWs c then cur.reverse :: jsSplitSkip t else jsSplitGo (c :: cur) t

/-- Split worker: currently inside a whitespace run. -/
def jsSplitSkip : List Char → List (List Char)
  | [] => [[]]
  | c :: t => if isWs c then jsSplitSkip t else jsSplitGo [c] t

end

/-- JS content.split on the whitespace-run regex. -/
def jsSplitWs (s : List Char) : List (List Char) := jsSplitGo [] s

/-- Reading-time estimate from extractPageInfo and crawlPage:
Math.ceil(content.split(whitespace).length / 200), as a natural number. -/
def readingTimeOf (s : String) : Nat := ((jsSplitWs s.data).length + 199) / 200

/-! ## Boilerplate stripping

The commentPatterns array of extractPageInfo.  Each JS pattern is a literal
marker followed by dot-star-dollar with the dotall flag, replaced once by
the empty string: the text is truncated at the first occurrence of the
marker.  The patterns are applied sequentially in the array order. -/

/-- The literal markers of the commentPatterns array, in source order. -/
def commentMarkersS : List String :=
  [ "Login to track your progress"
  , "Not sure where your gaps are?"
  , "Schedule a mock interview"
  , "Login to Join the Discussion"
  , "Your account is free"
  , "Sort By"
  , "Questions"
  , "Learn"
  , "Links"
  , "Legal"
  , "Contact"
  , "©"
  , "All rights reserved" ]

/-- Marker list at the character-list level. -/
def commentMarkers : List (List Char) := commentMarkersS.map String.data

/-- One pattern application: truncate s at the first occurrence of marker m
(JS replace of the regex m-dot-star-dollar by the empty string). -/
def stripFrom (m : List Char) : List Char → List Char
  | [] => []
  | c :: s => if begWith m (c :: s) then [] else c :: stripFrom m s

/-- Sequential application of every comment pattern, in order. -/
def stripAll (ms : List (List Char)) (s : List Char) : List Char :=
  ms.foldl (fun acc m => stripFrom m acc) s

/-- The post-processing tail of extractPageInfo: strip all boilerplate
patterns, then collapse whitespace again. -/
def boilerStrip (s : List Char) : List Char := cleanText (stripAll commentMarkers s)

/-- String-level boilerplate stripping. -/
def boilerStripS (s : String) : String := ⟨boilerStrip s.data⟩

/-! ## DOM model

A loaded page is modeled at the state it has once loading (and accordion
expansion) has finished: a flat list of elements carrying the attributes
that the crawler's selectors inspect, plus the document metadata read by
extractPageInfo.  querySelector returns the first element matching a
selector; the innerText of the body is modeled as the space-joined texts
of all elements, and the innerText of a single element is its own text. -/

/-- The selector shapes used by the crawler. -/
inductive Selector
  | byId (s : String)
  | byTag (s : String)
  | byClass (s : String)
  | byRole (s : String)
deriving DecidableEq

/-- One DOM element, with the attributes the crawler's selectors inspect. -/
structure Elem where
  tag : String
  idAttr : String
  classes : List String
  role : String
  text : String
deriving DecidableEq

/-- CSS selector matching on the modeled element attributes. -/
def selMatches : Selector → Elem → Bool
  | .byId s, e => e.idAttr == s
  | .byTag s, e => e.tag == s
  | .byClass s, e => e.classes.contains s
  | .byRole s, e => e.role == s

/-- A loaded document. -/
structure Dom where
  title : String
  elems : List Elem
  metaDescription : Option String
  metaKeywords : Option String
  metaAuthor : Option String
  url : String
deriving DecidableEq

/-- document.querySelector: the first element matching the selector. -/
def querySelector (d : Dom) (s : Selector) : Option Elem :=
  d.elems.find? (selMatches s)

/-- The designated primary-content selector of the site. -/
def mdSelector : Selector := .byId "markdown"

/-- The ordered fallback content selectors, shared verbatim by
waitForContent and extractPageInfo in the source. -/
def contentSelectors : List (String × Selector) :=
  [ ("main", .byTag "main")
  , (".main-content", .byClass "main-content")
  , ("article", .byTag "article")
  , (".content", .byClass "content")
  , (".post-content", .byClass "post-content")
  , (".article-content", .byClass "article-content")
  , ("[role=\"main\"]", .byRole "main")
  , (".prose", .byClass "prose")
  , (".markdown-body", .byClass "markdown-body") ]

/-- The chrome elements removed from the body clone in extractPageInfo. -/
def chromeSelectors : List Selector :=
  [ .byTag "nav", .byTag "header", .byTag "footer"
  , .byClass "nav", .byClass "header", .byClass "footer"
  , .byClass "sidebar", .byClass "menu", .byClass "navigation"
  , .byClass "breadcrumb", .byClass "pagination"
  , .byClass "comments", .byClass "comment", .byClass "comment-section"
  , .byClass "comment-thread", .byClass "comment-list", .byClass "comment-form"
  , .byClass "comments-container", .byClass "advertisement", .byClass "ads"
  , .byClass "discussion", .byClass "forum", .byClass "chat"
  , .byClass "chat-box", .byClass "chat-widget" ]

/-- Space-joined texts, modeling the innerText of a list of elements. -/
def joinSpace : List String → String
  | [] => ""
  | [s] => s
  | s :: t => s ++ " " ++ joinSpace t

/-- document.body.innerText of the loaded page. -/
def bodyInnerText (d : Dom) : String := joinSpace (d.elems.map Elem.text)

/-- The body clone of extractPageInfo after the chrome elements are removed. -/
def bodyNoChromeElems (d : Dom) : List Elem :=
  d.elems.filter (fun e => !(chromeSelectors.any (fun s => selMatches s e)))

/-- innerText of the chrome-stripped body clone. -/
def bodyNoChromeText (d : Dom) : String :=
  joinSpace ((bodyNoChromeElems d).map Elem.text)

/-- Length of element.innerText.trim(), the threshold test of the source. -/
def trimmedLen (s : String) : Nat := (trimRightWs (trimLeftWs s.data)).length

/-- True when some fallback content selector is present on the page. -/
def anyFallbackPresent (d : Dom) : Bool :=
  contentSelectors.any (fun ns => (querySelector d ns.2).isSome)

/-- waitForContent of crawlPage: it returns normally when the #markdown
element appears, or some fallback selector appears, or the body text grows
past 100 characters; otherwise its final waitForFunction times out and
crawlPage's attempt fails.  Timing is abstracted to presence on the loaded
page. -/
def waitForContentOk (d : Dom) : Bool :=
  if (querySelector d mdSelector).isSome then true
  else if anyFallbackPresent d then true
  else decide (100 < (bodyInnerText d).length)

/-- The fallback loop of extractPageInfo: probe the ordered selectors, pick
the first present element whose trimmed text exceeds 100 characters, else
fall back to the chrome-stripped body clone. -/
def fallbackSelect (d : Dom) : List (String × Selector) → String × Option String
  | [] => (bodyNoChromeText d, none)
  | (name, sel) :: rest =>
    match querySelector d sel with
    | some el => if 100 < trimmedLen el.text then (el.text, some name) else fallbackSelect d rest
    | none => fallbackSelect d rest

/-- The content-selection heuristic of extractPageInfo: #markdown first
when its trimmed text exceeds 100 characters, then the fallback loop. -/
def selectContent (d : Dom) : String × Option String :=
  match querySelector d mdSelector with
  | some el =>
    if 100 < trimmedLen el.text then (el.text, some "#markdown")
    else fallbackSelect d contentSelectors
  | none => fallbackSelect d contentSelectors

/-- Claim-level reading of the fallback step: the first selector of the
fixed list whose present element has trimmed text above the threshold. -/
def fallbackHit (d : Dom) : Option (String × Elem) :=
  contentSelectors.findSome? (fun ns =>
    (querySelector d ns.2).bind (fun el =>
      if 100 < trimmedLen el.text then some (ns.1, el) else none))

/-- Claim-level reading of the fallback outcome. -/
def fallbackSpecPart (d : Dom) : String × Option String :=
  match fallbackHit d with
  | some (name, el) => (el.text, some name)
  | none => (bodyNoChromeText d, none)

/-- Claim-level reading of the whole selection heuristic, written as the
spec states it: the primary selector always wins when over the threshold,
otherwise first-match-wins over the fixed fallback order, otherwise the
chrome-stripped body. -/
def selectContentSpec (d : Dom) : String × Option String :=
  match querySelector d mdSelector with
  | some el =>
    if 100 < trimmedLen el.text then (el.text, some "#markdown")
    else fallbackSpecPart d
  | none => fallbackSpecPart d

/-- Extracted page metadata. -/
structure PageMeta where
  description : String
  keywords : String
  author : String
  readingTime : Nat
deriving DecidableEq

/-- Result of extractPageInfo. -/
structure PageInfo where
  title : String
  content : String
  meta : PageMeta
  url : String
  usedSelector : Option String
  markdownFound : Bool
  markdownLength : Nat
deriving DecidableEq

/-- extractPageInfo: select the content region, clean its text, strip
boilerplate, recollapse whitespace, and compute the metadata. -/
def extractPageInfo (d : Dom) : PageInfo :=
  let sel := selectContent d
  let content := boilerStripS (cleanTextS sel.1)
  { title := cleanTextS d.title
  , content := content
  , meta :=
    { description := d.metaDescription.getD ""
    , keywords := d.metaKeywords.getD ""
    , author := d.metaAuthor.getD ""
    , readingTime := readingTimeOf content }
  , url := d.url
  , usedSelector := sel.2
  , markdownFound := (querySelector d mdSelector).isSome
  , markdownLength :=
      match querySelector d mdSelector with
      | some el => trimmedLen el.text
      | none => 0 }

/-- The extraction phase of one crawlPage attempt on a loaded page: wait
for content, then extract; a wait timeout fails the attempt. -/
def crawlExtract (d : Dom) : Option PageInfo :=
  if waitForContentOk d then some (extractPageInfo d) else none

/-! ## Artifact filenames

generatePDF and saveTextContent derive the file name from the URL path:
path segments joined with dashes, non-alphanumeric characters replaced by
dashes, an optional batch-index numeric first segment, and the date.  URL
parsing models new URL(url).pathname for absolute URLs without query or
fragment parts. -/

/-- Drop everything through the first scheme separator. -/
def dropScheme : List Char → List Char
  | [] => []
  | c :: t => if begWith "://".data (c :: t) then t.drop 2 else dropScheme t

/-- Keep from the first slash on: the pathname after the host. -/
def keepFromSlash : List Char → List Char
  | [] => []
  | c :: t => if c = '/' then c :: t else keepFromSlash t

/-- Split on slash characters. -/
def splitSlashGo (cur : List Char) : List Char → List (List Char)
  | [] => [cur.reverse]
  | c :: t => if c = '/' then cur.reverse :: splitSlashGo [] t else splitSlashGo (c :: cur) t

/-- urlObj.pathname.split slash, filtered to the non-empty segments. -/
def pathSegmentsL (url : List Char) : List (List Char) :=
  (splitSlashGo [] (keepFromSlash (dropScheme url))).filter (fun l => !l.isEmpty)

/-- Replace characters outside letters, digits and dash by a dash. -/
def sanitizeChar (c : Char) : Char := if c.isAlphanum || c == '-' then c else '-'

/-- Join path segments with dashes. -/
def joinDash : List (List Char) → List Char
  | [] => []
  | [x] => x
  | x :: y :: t => x ++ '-' :: joinDash (y :: t)

/-- The slug of generatePDF and saveTextContent. -/
def safeFilenameL (url : List Char) : List Char :=
  let segs := pathSegmentsL url
  (if segs.isEmpty then "page".data else joinDash segs).map sanitizeChar

/-- String-level slug. -/
def safeFilename (url : String) : String := ⟨safeFilenameL url.data⟩

/-- The optional batch-index prefix of an artifact filename. -/
def indexPrefixL : Option Nat → List Char
  | some i => (toString i).data ++ ['-']
  | none => []

/-- PDF artifact filename. -/
def pdfFilename (url : String) (index : Option Nat) (date : String) : String :=
  ⟨indexPrefixL index ++ safeFilenameL url.data ++ '-' :: date.data ++ ".pdf".data⟩

/-- Text artifact filename. -/
def txtFilename (url : String) (index : Option Nat) (date : String) : String :=
  ⟨indexPrefixL index ++ safeFilenameL url.data ++ '-' :: date.data ++ ".txt".data⟩

/-! ## Per-page crawl with retry, and the batch loop

The network-dependent body of one crawlPage attempt (navigation, content
wait, extraction, artifact rendering) is abstracted into an oracle giving
the outcome of each numbered attempt on a URL.  crawlPage retries while
retryCount is under retries minus one and otherwise rethrows the final
attempt's error. -/

/-- What one successful attempt of crawlPage yields before file naming. -/
structure PageData where
  title : String
  content : String
deriving DecidableEq

/-- The record a successful crawlPage returns. -/
structure SuccessRec where
  url : String
  title : String
  pdfPath : String
  textPath : String
  content : String
deriving DecidableEq

/-- Per-URL outcome of the batch loop. -/
inductive CrawlResultM
  | success (r : SuccessRec)
  | failure (url : String) (errMsg : String)
deriving DecidableEq

/-- The URL a crawl result is about. -/
def CrawlResultM.urlOf : CrawlResultM → String
  | .success r => r.url
  | .failure u _ => u

/-- True on a success result. -/
def CrawlResultM.isSuccess : CrawlResultM → Bool
  | .success _ => true
  | .failure _ _ => false

/-- The retry loop of crawlPage: attempt k, then up to `remaining` further
attempts; the last attempt's error is the one rethrown. -/
def tryAttempts (att : Nat → Except String PageData) : Nat → Nat → Except String PageData
  | k, 0 => att k
  | k, r + 1 =>
    match att k with
    | .ok pd => .ok pd
    | .error _ => tryAttempts att (k + 1) r

/-- crawlPage called with retryCount 0: attempts 0 through retries-1, and
on success the result record with the index-prefixed artifact paths. -/
def crawlPageModel (att : Nat → Except String PageData) (retries : Nat)
    (url : String) (index : Option Nat) (date : String) : Except String SuccessRec :=
  match tryAttempts att 0 (retries - 1) with
  | .ok pd => .ok
      { url := url
      , title := pd.title
      , pdfPath := pdfFilename url index date
      , textPath := txtFilename url index date
      , content := pd.content }
  | .error e => .error e

/-- The loop body of crawlMultiplePages: each URL in order, page index
startIndex + i, errors caught and converted to failure results. -/
def crawlMultiplePagesGo (oracle : String → Nat → Except String PageData) (retries : Nat)
    (date : String) : List String → Nat → List CrawlResultM
  | [], _ => []
  | url :: rest, idx =>
    (match crawlPageModel (oracle url) retries url (some idx) date with
     | .ok r => .success r
     | .error e => .failure url e) :: crawlMultiplePagesGo oracle retries date rest (idx + 1)

/-- crawlMultiplePages. -/
def crawlMultiplePages (oracle : String → Nat → Except String PageData) (retries : Nat)
    (date : String) (urls : List String) (startIndex : Nat) : List CrawlResultM :=
  crawlMultiplePagesGo oracle retries date urls startIndex

/-! ## Navigation crawl -/

/-- A discovered navigation link. -/
structure NavLink where
  href : String
  text : String
  fullUrl : String
deriving DecidableEq

/-- Lower-cased character list of a string. -/
def lowerL (s : String) : List Char := s.data.map Char.toLower

/-- Case-insensitive regex test, modeled for metacharacter-free patterns:
new RegExp(pat, flag i).test(s) is then containment of the lowered pattern
in the lowered subject. -/
def regexTestCI (pat s : String) : Bool := containsSub (lowerL pat) (lowerL s)

/-- The filter step of crawlFromNavigation: keep links whose text or href
the compiled pattern matches. -/
def filterLinks (test : String → Bool) (links : List NavLink) : List NavLink :=
  links.filter (fun l => test l.text || test l.href)

/-- Optional filter application. -/
def applyFilter : Option (String → Bool) → List NavLink → List NavLink
  | some t, links => filterLinks t links
  | none, links => links

/-- The maxPages truncation, with the JS truthiness of the option: a null
or zero maxPages truncates nothing. -/
def truncateMax : Option Nat → List NavLink → List NavLink
  | some m, l => if 0 < m ∧ m < l.length then l.take m else l
  | none, l => l

/-- The body of crawlFromNavigation once discovery succeeded: empty
discovery short-circuits, filter, start-index bounds check returning an
empty batch when exceeded, drop of the leading startIndex - 1 links,
maxPages truncation, and the batch crawl numbering files from the start
index. -/
def crawlFromNavigationLinks (oracle : String → Nat → Except String PageData) (retries : Nat)
    (date : String) (navigationLinks : List NavLink)
    (filterTest : Option (String → Bool)) (startIndex : Nat) (maxPages : Option Nat) :
    List CrawlResultM :=
  if navigationLinks.length = 0 then []
  else
    let linksToProcess := applyFilter filterTest navigationLinks
    if 1 < startIndex ∧ linksToProcess.length < startIndex then []
    else
      let afterStart :=
        if 1 < startIndex then linksToProcess.drop (startIndex - 1) else linksToProcess
      let limited := truncateMax maxPages afterStart
      let fileStartIndex := if startIndex = 0 then 1 else startIndex
      crawlMultiplePages oracle retries date (limited.map NavLink.fullUrl) fileStartIndex

/-- crawlFromNavigation: a discovery error is rethrown, a successful
discovery feeds the batch body, whose own outcome is never an error. -/
def crawlFromNavigation (oracle : String → Nat → Except String PageData) (retries : Nat)
    (date : String) (discovered : Except String (List NavLink))
    (filterTest : Option (String → Bool)) (startIndex : Nat) (maxPages : Option Nat) :
    Except String (List CrawlResultM) :=
  match discovered with
  | .error e => .error e
  | .ok navigationLinks =>
    .ok (crawlFromNavigationLinks oracle retries date navigationLinks filterTest startIndex maxPages)

/-! ## PDF generation strategies

The browser is modeled as the document of this.page plus the documents of
any additionally opened pages.  The enhanced strategy mutates the live
document (chrome removal, conditional body replacement, style injection);
the clean strategy builds a fresh document from the extracted data alone
on a newly opened page and closes it again. -/

/-- The element-removal list of generateEnhancedPDF. -/
def enhancedRemoveSelectors : List Selector :=
  [ .byTag "nav", .byClass "nav", .byClass "navigation", .byClass "sidebar"
  , .byClass "menu", .byClass "breadcrumb", .byClass "pagination"
  , .byClass "comments", .byClass "comment", .byClass "comment-section"
  , .byClass "comment-thread", .byClass "comment-list", .byClass "comment-form"
  , .byClass "comments-container", .byClass "advertisement", .byClass "ads"
  , .byClass "social-share", .byClass "related-posts"
  , .byTag "footer", .byClass "footer"
  , .byClass "discussion", .byClass "forum", .byClass "chat"
  , .byClass "chat-box", .byClass "chat-widget" ]

/-- The style element generateEnhancedPDF appends to the live document. -/
def printStyleElem : Elem :=
  { tag := "style", idAttr := "", classes := [], role := "", text := "" }

/-- The fresh minimal document the clean strategy builds: exactly the
extracted title, source URL, date, reading time, optional description and
author, and the body text. -/
structure CleanDoc where
  title : String
  sourceUrl : String
  date : String
  readingTime : Nat
  description : String
  author : String
  body : String
deriving DecidableEq

/-- What document a rendered PDF was produced from. -/
inductive PdfSource
  | fromLivePage (d : Dom)
  | fromFreshPage (c : CleanDoc)
deriving DecidableEq

/-- The browser: the document of this.page and the documents of any other
open pages. -/
structure BrowserState where
  pageDom : Dom
  extraPages : List CleanDoc
deriving DecidableEq

/-- The in-page mutation of generateEnhancedPDF: remove the chrome list,
replace the whole body by the markdown region when it was found with more
than 1000 characters, and append the print style element. -/
def enhancedTransform (d : Dom) (info : PageInfo) : Dom :=
  let d1 := { d with
    elems := d.elems.filter (fun e => !(enhancedRemoveSelectors.any (fun s => selMatches s e))) }
  let d2 :=
    if info.markdownFound && decide (1000 < info.markdownLength) then
      match querySelector d1 mdSelector with
      | some el => { d1 with elems := [el] }
      | none => d1
    else d1
  { d2 with elems := d2.elems ++ [printStyleElem] }

/-- generateEnhancedPDF: mutate the live document, render it. -/
def generateEnhancedPDF (st : BrowserState) (info : PageInfo) : BrowserState × PdfSource :=
  let st2 := { st with pageDom := enhancedTransform st.pageDom info }
  (st2, .fromLivePage st2.pageDom)

/-- generateBasicPDF: render the live document as-is. -/
def generateBasicPDF (st : BrowserState) : BrowserState × PdfSource :=
  (st, .fromLivePage st.pageDom)

/-- The clean document assembled from the extracted page info and the
generation date; the markup formatting of the body is abstracted to the
text it is generated from. -/
def cleanDocument (info : PageInfo) (date : String) : CleanDoc :=
  { title := info.title
  , sourceUrl := info.url
  , date := date
  , readingTime := info.meta.readingTime
  , description := info.meta.description
  , author := info.meta.author
  , body := info.content }

/-- generateCleanPDF: build the clean document, open a new page holding
it, render the PDF from that fresh page, close the page again. -/
def generateCleanPDF (st : BrowserState) (info : PageInfo) (date : String) :
    BrowserState × PdfSource :=
  let doc := cleanDocument info date
  let opened : BrowserState := { st with extraPages := st.extraPages ++ [doc] }
  let pdf := PdfSource.fromFreshPage doc
  let closed : BrowserState := { opened with extraPages := opened.extraPages.dropLast }
  (closed, pdf)

/-! ## Diagnostic logging of credentials

The two console lines that interpolate a cookie value, from
setupAuthentication and from the per-page cookie dump of crawlPage.  Both
interpolate value.substring(0, 20) followed by an ellipsis. -/

/-- The fragment of a credential value that reaches any log line. -/
def loggedCookieValue (v : List Char) : List Char := v.take 20

/-- The cookie list line of setupAuthentication. -/
def setupAuthLogLine (idx : Nat) (name domain value : List Char) : List Char :=
  "   ".data ++ (toString (idx + 1)).data ++ ". ".data ++ name ++ " for ".data ++ domain
    ++ " (".data ++ loggedCookieValue value ++ "...)".data

/-- The per-page cookie line of crawlPage. -/
def crawlPageCookieLogLine (name value domain : List Char) : List Char :=
  "   - ".data ++ name ++ ": ".data ++ loggedCookieValue value
    ++ "... (domain: ".data ++ domain ++ ")".data

/-! ## Concrete inputs used by counterexamples and witnesses -/

/-- A loaded page with a short body and none of the content selectors. -/
def exDom1 : Dom :=
  { title := "Thin page"
  , elems := [{ tag := "div", idAttr := "", classes := [], role := "", text := "A short body." }]
  , metaDescription := none
  , metaKeywords := none
  , metaAuthor := none
  , url := "https://www.hellointerview.com/learn/thin" }

/-- A loaded page whose main landmark holds only thin text. -/
def exDom2 : Dom :=
  { title := "Tiny main"
  , elems := [{ tag := "main", idAttr := "", classes := [], role := "", text := "Tiny." }]
  , metaDescription := none
  , metaKeywords := none
  , metaAuthor := none
  , url := "https://www.hellointerview.com/learn/tiny" }

/-- A collapsed text containing a boilerplate marker. -/
def exC7Text : List Char := "Deep dive into caching Learn more about Redis".data

/-- The first link of the spec's filter example. -/
def exScaling : NavLink :=
  { href := "/learn/a", text := "Scaling", fullUrl := "https://example.com/learn/a" }

/-- The second link of the spec's filter example. -/
def exIntro : NavLink :=
  { href := "/learn/b", text := "Intro", fullUrl := "https://example.com/learn/b" }

/-- A page outcome every successful attempt returns. -/
def exPageData : PageData := { title := "Page title", content := "Body text" }

/-- An oracle on which every attempt of every URL succeeds. -/
def exOracleOk : String → Nat → Except String PageData := fun _ _ => .ok exPageData

/-- An oracle on which the third example URL permanently fails. -/
def exOracleFail3 : String → Nat → Except String PageData := fun u _ =>
  if u = "https://x.com/learn/a3" then .error "network down" else .ok exPageData

/-- An oracle on which every attempt fails. -/
def exOracleFail : String → Nat → Except String PageData := fun _ _ => .error "down"

/-- The five URLs of the batch partial-failure example. -/
def exUrls5 : List String :=
  [ "https://x.com/learn/a1", "https://x.com/learn/a2", "https://x.com/learn/a3"
  , "https://x.com/learn/a4", "https://x.com/learn/a5" ]

/-- One example navigation link per position of a 10-link navigation. -/
def exNavLink (i : Nat) : NavLink :=
  { href := "/learn/p" ++ toString i
  , text := "Page " ++ toString i
  , fullUrl := "https://x.com/learn/p" ++ toString i }

/-- A 10-link navigation. -/
def exLinks10 : List NavLink := (List.range 10).map (fun i => exNavLink (i + 1))

/-- A 2-link navigation. -/
def exLinks2 : List NavLink := [exNavLink 1, exNavLink 2]

/-- Default navigation link for positional lookups. -/
def dNav : NavLink := { href := "", text := "", fullUrl := "" }

/-- Default crawl result for positional lookups. -/
def dRes : CrawlResultM := .failure "" ""

/-- A credential value shorter than the truncation width. -/
def exShortValue : List Char := "short".data

/-- A credential value longer than the truncation width. -/
def exLongValue : List Char := "0123456789abcdefghijKLMNO".data

/-! ## Supporting lemmas -/

/-- The split workers always return at least one token. -/
theorem jsSplit_pos (s : List Char) :
    (∀ cur, 1 ≤ (jsSplitGo cur s).length) ∧ 1 ≤ (jsSplitSkip s).length := by
  induction s with
  | nil => exact ⟨fun cur => by simp [jsSplitGo], by simp [jsSplitSkip]⟩
  | cons c t ih =>
    constructor
    · intro cur
      by_cases h : isWs c
      · simp [jsSplitGo, h]
      · simpa [jsSplitGo, h] using ih.1 (c :: cur)
    · by_cases h : isWs c
      · simpa [jsSplitSkip, h] using ih.2
      · simpa [jsSplitSkip, h] using ih.1 [c]

/-- The reading-time estimate is at least one minute. -/
theorem readingTimeOf_pos (s : String) : 1 ≤ readingTimeOf s := by
  have h := (jsSplit_pos s.data).1 []
  have h2 : 1 * 200 ≤ (jsSplitGo [] s.data).length + 199 := by omega
  exact (Nat.le_div_iff_mul_le (by omega)).mpr h2

end Crawler

namespace Crawler

/-! ## Claim theorems -/

/-- C10: for every extracted page the computed readingTime is at least 1,
even for empty body text, because splitting any string on whitespace
yields at least one token before the division by 200 is rounded up. -/
theorem c10_theorem : ∀ (d : Dom) (s : String),
    1 ≤ (extractPageInfo d).meta.readingTime ∧ 1 ≤ readingTimeOf s := by
  intro d s
  exact ⟨readingTimeOf_pos _, readingTimeOf_pos _⟩

/-- C8: the clean rendering strategy leaves the original page's document
(and the whole browser state) unchanged and renders the PDF from a fresh
document built only from the extracted title, metadata and body text. -/
theorem c8_theorem : ∀ (st : BrowserState) (info : PageInfo) (date : String),
    (generateCleanPDF st info date).1 = st
    ∧ (generateCleanPDF st info date).2 = PdfSource.fromFreshPage (cleanDocument info date) := by
  intro st info date
  constructor
  · simp [generateCleanPDF]
  · rfl

/-- C9 counterexample: a credential value of five characters appears in
full inside the setupAuthentication diagnostic line, refuting the claim
that no diagnostic output ever contains a credential value in full. -/
theorem c9_counterexample :
    containsSub exShortValue
      (setupAuthLogLine 0 "token".data ".hellointerview.com".data exShortValue) = true
    ∧ exShortValue.length ≤ 20 := by decide

/-- C9 amended: every logged occurrence of a credential value is the
value's first 20 characters, so values longer than the truncation width
never appear whole, while values of at most 20 characters appear in full. -/
theorem c9_theorem : ∀ v : List Char,
    loggedCookieValue v = v.take 20
    ∧ (v.length ≤ 20 → loggedCookieValue v = v)
    ∧ (20 < v.length → loggedCookieValue v ≠ v) := by
  intro v
  refine ⟨rfl, fun h => List.take_of_length_le h, fun h hc => ?_⟩
  have := congrArg List.length hc
  simp only [loggedCookieValue, List.length_take] at this
  omega

/-- C9 witness: at a 25-character credential value the logged fragment is
a proper truncation. -/
theorem c9_witness :
    20 < exLongValue.length ∧ loggedCookieValue exLongValue ≠ exLongValue :=
  ⟨by decide, (c9_theorem exLongValue).2.2 (by decide)⟩

/-- C4 counterexample: with the pattern matching only the URL's origin,
the claim says the link is retained because the pattern matches the
resolved absolute URL; the code tests the relative href instead and drops
the link. -/
theorem c4_counterexample :
    filterLinks (regexTestCI "example") [exScaling] = []
    ∧ regexTestCI "example" exScaling.fullUrl = true := by decide

/-- C4 amended: the filter retains exactly the links for which the
case-insensitive pattern matches the display text or the relative href,
and on the spec's example only the Scaling link is retained. -/
theorem c4_theorem :
    (∀ (test : String → Bool) (links : List NavLink) (l : NavLink),
        l ∈ filterLinks test links ↔ l ∈ links ∧ (test l.text = true ∨ test l.href = true))
    ∧ filterLinks (regexTestCI "scal") [exScaling, exIntro] = [exScaling] := by
  constructor
  · intro test links l
    unfold filterLinks
    rw [List.mem_filter]
    simp [Bool.or_eq_true]
  · decide

/-- C5 counterexample: a start index of 5 on a 2-link navigation makes
crawlFromNavigation complete as a normal, non-error empty result rather
than fail with a configuration error. -/
theorem c5_counterexample :
    crawlFromNavigation exOracleFail 3 "2024-01-01" (Except.ok exLinks2) none 5 none
      = Except.ok [] := rfl

/-- C5 amended: whenever the start index exceeds the filtered link list's
length, crawlFromNavigation returns a normal empty result list
immediately, with no page crawled and no error surfaced. -/
theorem c5_theorem (oracle : String → Nat → Except String PageData) (retries : Nat)
    (date : String) (links : List NavLink) (filterTest : Option (String → Bool))
    (startIndex : Nat) (maxPages : Option Nat)
    (h1 : 1 < startIndex)
    (h2 : (applyFilter filterTest links).length < startIndex) :
    crawlFromNavigation oracle retries date (Except.ok links) filterTest startIndex maxPages
      = Except.ok [] := by
  show Except.ok (crawlFromNavigationLinks oracle retries date links filterTest startIndex maxPages)
    = Except.ok []
  unfold crawlFromNavigationLinks
  by_cases h0 : links.length = 0
  · rw [if_pos h0]
  · rw [if_neg h0, if_pos ⟨h1, h2⟩]

/-- C5 witness: the amended statement at the concrete 2-link navigation
with start index 5. -/
theorem c5_witness :
    (1 < 5 ∧ (applyFilter none exLinks2).length < 5)
    ∧ crawlFromNavigation exOracleOk 3 "2024-01-01" (Except.ok exLinks2) none 5 (some 3)
        = Except.ok [] :=
  ⟨by decide, c5_theorem exOracleOk 3 "2024-01-01" exLinks2 none 5 (some 3)
    (by decide) (by decide)⟩

/-- The batch loop yields one result per URL. -/
theorem crawlMultiplePagesGo_length (oracle : String → Nat → Except String PageData)
    (retries : Nat) (date : String) :
    ∀ (urls : List String) (idx : Nat),
      (crawlMultiplePagesGo oracle retries date urls idx).length = urls.length := by
  intro urls
  induction urls with
  | nil => intro idx; rfl
  | cons u rest ih => intro idx; simp [crawlMultiplePagesGo, ih]

/-- The i-th batch result is the converted outcome of the i-th URL at page
index idx + i. -/
theorem crawlMultiplePagesGo_getD (oracle : String → Nat → Except String PageData)
    (retries : Nat) (date : String) :
    ∀ (urls : List String) (idx i : Nat), i < urls.length →
      (crawlMultiplePagesGo oracle retries date urls idx).getD i dRes =
        (match crawlPageModel (oracle (urls.getD i "")) retries (urls.getD i "")
            (some (idx + i)) date with
         | .ok r => CrawlResultM.success r
         | .error e => CrawlResultM.failure (urls.getD i "") e) := by
  intro urls
  induction urls with
  | nil => intro idx i h; simp at h
  | cons u rest ih =>
    intro idx i h
    cases i with
    | zero => simp [crawlMultiplePagesGo]
    | succ j =>
      have hj : j < rest.length := by simpa using h
      have harith : idx + 1 + j = idx + (j + 1) := by omega
      simp only [crawlMultiplePagesGo, List.getD_cons_succ]
      rw [ih (idx + 1) j hj, harith]

/-- C6: crawlMultiplePages returns exactly one result per input URL, in
input order, each the converted outcome of that URL's retried crawl (a
Failure carrying the URL and the final error message when all attempts
fail), and on the 5-URL example with URL 3 permanently failing it yields
5 results with position 3 a Failure and the rest Successes. -/
theorem c6_theorem :
    (∀ (oracle : String → Nat → Except String PageData) (retries : Nat) (date : String)
        (urls : List String) (startIndex : Nat),
        (crawlMultiplePages oracle retries date urls startIndex).length = urls.length
        ∧ ∀ i, i < urls.length →
            (crawlMultiplePages oracle retries date urls startIndex).getD i dRes =
              (match crawlPageModel (oracle (urls.getD i "")) retries (urls.getD i "")
                  (some (startIndex + i)) date with
               | .ok r => CrawlResultM.success r
               | .error e => CrawlResultM.failure (urls.getD i "") e))
    ∧ ((crawlMultiplePages exOracleFail3 3 "2024-01-01" exUrls5 1).length = 5
       ∧ (crawlMultiplePages exOracleFail3 3 "2024-01-01" exUrls5 1).getD 2 dRes
           = CrawlResultM.failure "https://x.com/learn/a3" "network down"
       ∧ ((crawlMultiplePages exOracleFail3 3 "2024-01-01" exUrls5 1).getD 0 dRes).isSuccess = true
       ∧ ((crawlMultiplePages exOracleFail3 3 "2024-01-01" exUrls5 1).getD 1 dRes).isSuccess = true
       ∧ ((crawlMultiplePages exOracleFail3 3 "2024-01-01" exUrls5 1).getD 3 dRes).isSuccess = true
       ∧ ((crawlMultiplePages exOracleFail3 3 "2024-01-01" exUrls5 1).getD 4 dRes).isSuccess = true
       ∧ ((crawlMultiplePages exOracleFail3 3 "2024-01-01" exUrls5 1).getD 0 dRes).urlOf
           = "https://x.com/learn/a1"
       ∧ ((crawlMultiplePages exOracleFail3 3 "2024-01-01" exUrls5 1).getD 4 dRes).urlOf
           = "https://x.com/learn/a5") := by
  constructor
  · intro oracle retries date urls startIndex
    exact ⟨crawlMultiplePagesGo_length oracle retries date urls startIndex,
      fun i h => crawlMultiplePagesGo_getD oracle retries date urls startIndex i h⟩
  · decide

/-- The fallback loop of extractPageInfo picks exactly the first selector
of the list whose present element has trimmed text above the threshold. -/
theorem fallbackSelect_eq_spec (d : Dom) :
    ∀ sels, fallbackSelect d sels =
      (match sels.findSome? (fun ns => (querySelector d ns.2).bind (fun el =>
          if 100 < trimmedLen el.text then some (ns.1, el) else none)) with
       | some (name, el) => (el.text, some name)
       | none => (bodyNoChromeText d, none)) := by
  intro sels
  induction sels with
  | nil => rfl
  | cons ns rest ih =>
    obtain ⟨name, sel⟩ := ns
    rw [List.findSome?_cons]
    cases hq : querySelector d sel with
    | none => simpa [fallbackSelect, hq] using ih
    | some el =>
      by_cases ht : 100 < trimmedLen el.text
      · simp [fallbackSelect, hq, ht]
      · simpa [fallbackSelect, hq, ht] using ih

/-- C2: content selection is deterministic and first-match-wins: the
primary #markdown element is chosen whenever present with trimmed text
over 100 characters, regardless of fallback matches; otherwise the first
fallback selector of the fixed order whose text passes the threshold is
chosen; otherwise the chrome-stripped body is used.  selectContentSpec
states the claim and selectContent is the translated source loop. -/
theorem c2_theorem : ∀ d : Dom, selectContent d = selectContentSpec d := by
  intro d
  unfold selectContent selectContentSpec fallbackSpecPart fallbackHit
  cases hq : querySelector d mdSelector with
  | none => exact fallbackSelect_eq_spec d contentSelectors
  | some el =>
    by_cases ht : 100 < trimmedLen el.text
    · simp [ht]
    · simpa [ht] using fallbackSelect_eq_spec d contentSelectors

/-- C1 counterexample: a loaded page whose body text is 13 characters and
on which none of the content selectors is present makes the extraction
phase fail (waitForContent times out), refuting the claim that such a
page still yields a PageContent. -/
theorem c1_counterexample :
    crawlExtract exDom1 = none
    ∧ (bodyInnerText exDom1).length ≤ 100
    ∧ (querySelector exDom1 mdSelector).isSome = false
    ∧ anyFallbackPresent exDom1 = false := by decide

/-- C1 amended: extraction fails exactly when the page reaches none of the
minimally-loaded states of waitForContent, meaning no #markdown element,
no fallback content selector, and body text of at most 100 characters;
whenever some selector is present or the body text exceeds 100 characters,
extraction returns the extracted content as-is and in particular never
fails merely because the content is thin. -/
theorem c1_theorem : ∀ d : Dom,
    (crawlExtract d = none ↔
      ((querySelector d mdSelector).isSome = false ∧ anyFallbackPresent d = false
        ∧ (bodyInnerText d).length ≤ 100))
    ∧ (waitForContentOk d = true → crawlExtract d = some (extractPageInfo d)) := by
  intro d
  constructor
  · unfold crawlExtract waitForContentOk
    by_cases h1 : (querySelector d mdSelector).isSome
    · simp [h1]
    · by_cases h2 : anyFallbackPresent d
      · simp [h1, h2]
      · by_cases h3 : 100 < (bodyInnerText d).length
        · simp [h1, h2, h3]
        · simp [h1, h2, h3]
          omega
  · intro hw
    unfold crawlExtract
    rw [hw]
    simp

/-- C1 witness: on a loaded page whose main landmark holds only five
characters of text, extraction still succeeds and returns the thin
content. -/
theorem c1_witness :
    waitForContentOk exDom2 = true ∧ crawlExtract exDom2 = some (extractPageInfo exDom2) :=
  ⟨by decide, (c1_theorem exDom2).2 (by decide)⟩

/-- Positional lookup after drop shifts the position. -/
theorem getD_drop_eq {α : Type} (d : α) (l : List α) (k i : Nat) :
    (l.drop k).getD i d = l.getD (k + i) d := by
  simp [List.getD_eq_getElem?_getD, List.getElem?_drop]

/-- Positional lookup within the taken range is unchanged. -/
theorem getD_take_eq {α : Type} (d : α) (l : List α) (n i : Nat) (h : i < n) :
    (l.take n).getD i d = l.getD i d := by
  simp [List.getD_eq_getElem?_getD, List.getElem?_take_of_lt h]

/-- Positional lookup commutes with map inside the list's range. -/
theorem getD_map_eq {α β : Type} (f : α → β) (d : α) (l : List α) (i : Nat)
    (h : i < l.length) :
    (l.map f).getD i (f d) = f (l.getD i d) := by
  simp [List.getD_eq_getElem?_getD, List.getElem?_map, List.getElem?_eq_getElem h]

/-- A positive maxPages truncation is plain take. -/
theorem truncateMax_some_take (m : Nat) (hm : 1 ≤ m) (l : List NavLink) :
    truncateMax (some m) l = l.take m := by
  show (if 0 < m ∧ m < l.length then l.take m else l) = l.take m
  by_cases h : m < l.length
  · rw [if_pos ⟨hm, h⟩]
  · rw [if_neg (fun hc => h hc.2), List.take_of_length_le (by omega)]

/-- When every attempt succeeds the retry loop succeeds. -/
theorem tryAttempts_ok (att : Nat → Except String PageData)
    (hok : ∀ k, ∃ pd, att k = Except.ok pd) :
    ∀ n k, ∃ pd, tryAttempts att k n = Except.ok pd := by
  intro n
  induction n with
  | zero => intro k; exact hok k
  | succ r ih =>
    intro k
    obtain ⟨pd, hpd⟩ := hok k
    exact ⟨pd, by simp [tryAttempts, hpd]⟩

/-- When every attempt succeeds, crawlPage returns the success record with
the index-prefixed artifact paths. -/
theorem crawlPageModel_ok (att : Nat → Except String PageData) (retries : Nat)
    (url : String) (index : Option Nat) (date : String)
    (hok : ∀ k, ∃ pd, att k = Except.ok pd) :
    ∃ pd : PageData, crawlPageModel att retries url index date = Except.ok
      { url := url, title := pd.title, pdfPath := pdfFilename url index date
      , textPath := txtFilename url index date, content := pd.content } := by
  obtain ⟨pd, hpd⟩ := tryAttempts_ok att hok (retries - 1) 0
  exact ⟨pd, by simp [crawlPageModel, hpd]⟩

/-- The indexed PDF filename is the index, a dash, the slug, a dash, the
date and the extension. -/
theorem pdfFilename_some (url : String) (n : Nat) (date : String) :
    pdfFilename url (some n) date
      = toString n ++ "-" ++ safeFilename url ++ "-" ++ date ++ ".pdf" := by
  apply String.ext
  simp [pdfFilename, indexPrefixL, safeFilename, String.data_append]

/-- C3: resuming with start index s and maxPages m on a filtered link list
of length n crawls exactly the links at positions s through min(s+m-1, n),
yielding that many results whose artifact filenames carry the absolute
index prefixes s, s+1, and so on. -/
theorem c3_theorem (oracle : String → Nat → Except String PageData) (retries : Nat)
    (date : String) (links : List NavLink) (filterTest : Option (String → Bool))
    (s m : Nat)
    (hs1 : 1 < s) (hs2 : s ≤ (applyFilter filterTest links).length) (hm : 1 ≤ m)
    (hok : ∀ u k, ∃ pd, oracle u k = Except.ok pd) :
    ∃ out, crawlFromNavigation oracle retries date (Except.ok links) filterTest s (some m)
        = Except.ok out
      ∧ out.length = min m ((applyFilter filterTest links).length - (s - 1))
      ∧ ∀ i, i < out.length →
          ∃ r, out.getD i dRes = CrawlResultM.success r
            ∧ r.url = ((applyFilter filterTest links).getD (s - 1 + i) dNav).fullUrl
            ∧ r.pdfPath = toString (s + i) ++ "-" ++ safeFilename r.url ++ "-" ++ date ++ ".pdf" := by
  have hlplen : (applyFilter filterTest links).length ≤ links.length := by
    cases filterTest with
    | none => simp [applyFilter]
    | some t => simpa [applyFilter, filterLinks] using List.length_filter_le _ links
  have hn0 : ¬ links.length = 0 := by omega
  set lp := applyFilter filterTest links with hlp
  set l3 := (lp.drop (s - 1)).take m with hl3
  set urls := l3.map NavLink.fullUrl with hurls
  have hbody : crawlFromNavigationLinks oracle retries date links filterTest s (some m)
      = crawlMultiplePages oracle retries date urls s := by
    simp only [crawlFromNavigationLinks]
    rw [if_neg hn0, if_neg (by omega : ¬ (1 < s ∧ lp.length < s)), if_pos hs1,
      truncateMax_some_take m hm, if_neg (by omega : ¬ s = 0)]
  have hlen3 : l3.length = min m (lp.length - (s - 1)) := by
    rw [hl3, List.length_take, List.length_drop]
  have hulen : urls.length = l3.length := by rw [hurls, List.length_map]
  have hout : (crawlMultiplePages oracle retries date urls s).length = urls.length :=
    crawlMultiplePagesGo_length oracle retries date urls s
  refine ⟨crawlMultiplePages oracle retries date urls s, ?_, ?_, ?_⟩
  · exact congrArg Except.ok hbody
  · rw [hout, hulen, hlen3]
  · intro i hi
    have hiu : i < urls.length := by rwa [hout] at hi
    have hil3 : i < l3.length := by rwa [hulen] at hiu
    have him : i < m := by rw [hlen3] at hil3; omega
    have hurl : urls.getD i "" = (l3.getD i dNav).fullUrl := by
      rw [hurls]
      exact getD_map_eq NavLink.fullUrl dNav l3 i hil3
    have hl3i : l3.getD i dNav = lp.getD (s - 1 + i) dNav := by
      rw [hl3, getD_take_eq dNav _ m i him, getD_drop_eq dNav lp (s - 1) i]
    obtain ⟨pd, hpd⟩ := crawlPageModel_ok (oracle (urls.getD i "")) retries (urls.getD i "")
      (some (s + i)) date (hok _)
    have hstep := crawlMultiplePagesGo_getD oracle retries date urls s i hiu
    rw [hpd] at hstep
    refine ⟨_, hstep, ?_, ?_⟩
    · show urls.getD i "" = (lp.getD (s - 1 + i) dNav).fullUrl
      rw [hurl, hl3i]
    · exact pdfFilename_some _ _ _

/-- C3 witness: start index 6 and maxPages 3 on the 10-link navigation. -/
theorem c3_witness :
    (1 < 6 ∧ 6 ≤ (applyFilter none exLinks10).length ∧ 1 ≤ 3)
    ∧ ∃ out, crawlFromNavigation exOracleOk 3 "2024-01-01" (Except.ok exLinks10) none 6 (some 3)
          = Except.ok out
        ∧ out.length = min 3 ((applyFilter none exLinks10).length - (6 - 1))
        ∧ ∀ i, i < out.length →
            ∃ r, out.getD i dRes = CrawlResultM.success r
              ∧ r.url = ((applyFilter none exLinks10).getD (6 - 1 + i) dNav).fullUrl
              ∧ r.pdfPath = toString (6 + i) ++ "-" ++ safeFilename r.url ++ "-"
                  ++ "2024-01-01" ++ ".pdf" :=
  ⟨by refine ⟨by omega, by decide, by omega⟩,
    c3_theorem exOracleOk 3 "2024-01-01" exLinks10 none 6 3 (by omega) (by decide) (by omega)
      (fun u k => ⟨exPageData, rfl⟩)⟩

/-- begWith decides initial-segment occurrence. -/
theorem begWith_iff (m : List Char) : ∀ s, begWith m s = true ↔ PrefOf m s := by
  induction m with
  | nil =>
    intro s
    simp only [begWith]
    exact ⟨fun _ => ⟨s, rfl⟩, fun _ => trivial⟩
  | cons a m ih =>
    intro s
    cases s with
    | nil =>
      simp only [begWith]
      constructor
      · intro h; cases h
      · rintro ⟨t, ht⟩; cases ht
    | cons b s =>
      simp only [begWith, Bool.and_eq_true, beq_iff_eq]
      constructor
      · rintro ⟨rfl, h⟩
        obtain ⟨t, ht⟩ := (ih s).mp h
        exact ⟨t, by rw [List.cons_append, ht]⟩
      · rintro ⟨t, ht⟩
        rw [List.cons_append] at ht
        injection ht with h1 h2
        exact ⟨h1, (ih s).mpr ⟨t, h2⟩⟩

/-- An initial segment of an initial segment is one of the whole. -/
theorem prefOf_trans {a b c : List Char} (h1 : PrefOf a b) (h2 : PrefOf b c) : PrefOf a c := by
  obtain ⟨t1, ht1⟩ := h1
  obtain ⟨t2, ht2⟩ := h2
  exact ⟨t1 ++ t2, by rw [← List.append_assoc, ht1, ht2]⟩

/-- An occurrence inside an initial segment is an occurrence in the whole. -/
theorem infOf_of_prefOf {m p l : List Char} (h1 : InfOf m p) (h2 : PrefOf p l) : InfOf m l := by
  obtain ⟨u, v, huv⟩ := h1
  obtain ⟨t, ht⟩ := h2
  exact ⟨u, v ++ t, by rw [← ht, ← huv]; simp [List.append_assoc]⟩

/-- Truncation at a marker yields an initial segment. -/
theorem stripFrom_prefOf (m : List Char) : ∀ s, PrefOf (stripFrom m s) s := by
  intro s
  induction s with
  | nil => exact ⟨[], rfl⟩
  | cons c s ih =>
    by_cases h : begWith m (c :: s) = true
    · exact ⟨c :: s, by simp [stripFrom, h]⟩
    · obtain ⟨t, ht⟩ := ih
      exact ⟨t, by simp [stripFrom, h, ht]⟩

/-- After truncation at a nonempty marker, the marker no longer occurs. -/
theorem stripFrom_noInf (m : List Char) (hm : m ≠ []) :
    ∀ s, ¬ InfOf m (stripFrom m s) := by
  intro s
  induction s with
  | nil =>
    rintro ⟨u, v, huv⟩
    simp only [stripFrom] at huv
    rcases List.append_eq_nil.mp huv with ⟨h1, h2⟩
    rcases List.append_eq_nil.mp h1 with ⟨-, h3⟩
    exact hm h3
  | cons c s ih =>
    by_cases h : begWith m (c :: s) = true
    · rintro ⟨u, v, huv⟩
      simp only [stripFrom, if_pos h] at huv
      rcases List.append_eq_nil.mp huv with ⟨h1, h2⟩
      rcases List.append_eq_nil.mp h1 with ⟨-, h3⟩
      exact hm h3
    · rintro ⟨u, v, huv⟩
      simp only [stripFrom, if_neg h] at huv
      cases u with
      | nil =>
        apply h
        rw [begWith_iff]
        simp only [List.nil_append] at huv
        have hpre : PrefOf m (c :: stripFrom m s) := ⟨v, huv⟩
        have hps : PrefOf (c :: stripFrom m s) (c :: s) := by
          obtain ⟨t, ht⟩ := stripFrom_prefOf m s
          exact ⟨t, by rw [List.cons_append, ht]⟩
        exact prefOf_trans hpre hps
      | cons x u =>
        rw [List.cons_append, List.cons_append] at huv
        injection huv with h1 h2
        exact ih ⟨u, v, h2⟩

/-- Truncation at an absent marker changes nothing. -/
theorem stripFrom_id (m : List Char) : ∀ s, ¬ InfOf m s → stripFrom m s = s := by
  intro s
  induction s with
  | nil => intro; rfl
  | cons c s ih =>
    intro hno
    by_cases h : begWith m (c :: s) = true
    · exfalso
      obtain ⟨t, ht⟩ := (begWith_iff m (c :: s)).mp h
      exact hno ⟨[], t, by simpa using ht⟩
    · have hs : ¬ InfOf m s := by
        rintro ⟨u, v, huv⟩
        exact hno ⟨c :: u, v, by rw [← huv]; rfl⟩
      simp [stripFrom, h, ih hs]

/-- Sequential stripping yields an initial segment of the input. -/
theorem stripAll_prefOf : ∀ (ms : List (List Char)) (s : List Char), PrefOf (stripAll ms s) s := by
  intro ms
  induction ms with
  | nil => intro s; exact ⟨[], by simp [stripAll]⟩
  | cons m ms ih =>
    intro s
    exact prefOf_trans (ih (stripFrom m s)) (stripFrom_prefOf m s)

/-- After the full sequence, none of its nonempty markers occurs. -/
theorem stripAll_noInf : ∀ (ms : List (List Char)) (s : List Char) (m : List Char),
    m ∈ ms → m ≠ [] → ¬ InfOf m (stripAll ms s) := by
  intro ms
  induction ms with
  | nil => intro s m hm; cases hm
  | cons m0 ms ih =>
    intro s m hm hne
    rcases List.mem_cons.mp hm with h | h
    · subst h
      intro hinf
      exact stripFrom_noInf m hne s (infOf_of_prefOf hinf (stripAll_prefOf ms (stripFrom m s)))
    · exact ih (stripFrom m0 s) m h hne

/-- The full sequence changes nothing on marker-free text. -/
theorem stripAll_id : ∀ (ms : List (List Char)) (s : List Char),
    (∀ m ∈ ms, ¬ InfOf m s) → stripAll ms s = s := by
  intro ms
  induction ms with
  | nil => intro s _; rfl
  | cons m0 ms ih =>
    intro s h
    have h0 : stripFrom m0 s = s := stripFrom_id m0 s (h m0 (List.mem_cons_self m0 ms))
    show stripAll ms (stripFrom m0 s) = s
    rw [h0]
    exact ih s (fun m hm => h m (List.mem_cons_of_mem m0 hm))

/-- A whitespace character of space-only text is the space character. -/
theorem wsOnly_head {a : Char} {s : List Char}
    (h : wsOnlySpace (a :: s) = true) (hw : isWs a = true) : a = ' ' := by
  simp only [wsOnlySpace, List.all_cons, Bool.and_eq_true] at h
  have h1 := h.1
  rw [hw] at h1
  simpa using h1

/-- Collapsed text is unchanged by whitespace squeezing. -/
theorem squeezeWs_id : ∀ s, wsOnlySpace s = true → noAdjWs s = true → squeezeWs s = s := by
  intro s
  induction s with
  | nil => intro _ _; rfl
  | cons a s ih =>
    intro hws hadj
    cases s with
    | nil =>
      by_cases h : isWs a = true
      · have ha : a = ' ' := wsOnly_head hws h
        simp [squeezeWs, h, ha]
      · simp [squeezeWs, h]
    | cons b t =>
      have hpair : (!isWs a || !isWs b) = true := by
        simp only [noAdjWs, Bool.and_eq_true] at hadj
        exact hadj.1
      have hws' : wsOnlySpace (b :: t) = true := by
        simp only [wsOnlySpace, List.all_cons, Bool.and_eq_true] at hws ⊢
        exact hws.2
      have hadj' : noAdjWs (b :: t) = true := by
        simp only [noAdjWs, Bool.and_eq_true] at hadj
        exact hadj.2
      have hrec := ih hws' hadj'
      by_cases h : isWs a = true
      · have hb : isWs b = false := by
          rw [h] at hpair
          simpa using hpair
        have ha : a = ' ' := wsOnly_head hws h
        simp [squeezeWs, h, hb, ha, hrec]
      · simp [squeezeWs, h, hrec]

/-- Text with a non-whitespace head is unchanged by left trimming. -/
theorem trimLeftWs_id : ∀ s, headOk s = true → trimLeftWs s = s := by
  intro s
  cases s with
  | nil => intro _; rfl
  | cons c t =>
    intro h
    simp only [headOk, Bool.not_eq_true'] at h
    simp [trimLeftWs, List.dropWhile_cons, h]

/-- Right trimming yields an initial segment. -/
theorem trimRightWs_prefOf : ∀ s, PrefOf (trimRightWs s) s := by
  intro s
  induction s with
  | nil => exact ⟨[], rfl⟩
  | cons c s ih =>
    cases hr : trimRightWs s with
    | nil =>
      by_cases h : isWs c = true
      · exact ⟨c :: s, by simp [trimRightWs, hr, h]⟩
      · exact ⟨s, by simp [trimRightWs, hr, h]⟩
    | cons x xs =>
      rw [hr] at ih
      obtain ⟨t, ht⟩ := ih
      refine ⟨t, ?_⟩
      simp only [trimRightWs, hr]
      rw [List.cons_append, ht]

/-- Text with a non-whitespace last character is unchanged by right
trimming. -/
theorem trimRightWs_id : ∀ s, lastOk s = true → trimRightWs s = s := by
  intro s
  induction s with
  | nil => intro _; rfl
  | cons c s ih =>
    intro h
    cases s with
    | nil =>
      simp only [lastOk, Bool.not_eq_true'] at h
      simp [trimRightWs, h]
    | cons b t =>
      have hlast : lastOk (b :: t) = true := h
      have hrec := ih hlast
      show (match trimRightWs (b :: t) with
            | [] => if isWs c = true then [] else [c]
            | t => c :: t) = c :: b :: t
      rw [hrec]

/-- Right-trimmed text never ends in whitespace. -/
theorem trimRightWs_lastOk : ∀ s, lastOk (trimRightWs s) = true := by
  intro s
  induction s with
  | nil => rfl
  | cons c s ih =>
    cases hr : trimRightWs s with
    | nil =>
      by_cases h : isWs c = true
      · simp [trimRightWs, hr, h, lastOk]
      · simp [trimRightWs, hr, h, lastOk]
    | cons x xs =>
      rw [hr] at ih
      simp only [trimRightWs, hr]
      simpa [lastOk] using ih

/-- Space-onliness restricts to initial segments. -/
theorem wsOnlySpace_prefOf {p s : List Char} (h : PrefOf p s)
    (hs : wsOnlySpace s = true) : wsOnlySpace p = true := by
  obtain ⟨t, ht⟩ := h
  rw [← ht] at hs
  simp only [wsOnlySpace, List.all_append, Bool.and_eq_true] at hs
  exact hs.1

/-- Adjacent-whitespace freedom restricts to left parts of appends. -/
theorem noAdjWs_append_left : ∀ (p t : List Char), noAdjWs (p ++ t) = true → noAdjWs p = true := by
  intro p
  induction p with
  | nil => intro t _; rfl
  | cons a p ih =>
    intro t h
    cases p with
    | nil => rfl
    | cons b q =>
      simp only [List.cons_append, noAdjWs, Bool.and_eq_true] at h ⊢
      exact ⟨h.1, ih t (by simpa using h.2)⟩

/-- Adjacent-whitespace freedom restricts to initial segments. -/
theorem noAdjWs_prefOf {p s : List Char} (h : PrefOf p s)
    (hs : noAdjWs s = true) : noAdjWs p = true := by
  obtain ⟨t, ht⟩ := h
  rw [← ht] at hs
  exact noAdjWs_append_left p t hs

/-- A non-whitespace head survives to initial segments. -/
theorem headOk_prefOf {p s : List Char} (h : PrefOf p s)
    (hs : headOk s = true) : headOk p = true := by
  obtain ⟨t, ht⟩ := h
  cases p with
  | nil => rfl
  | cons a q =>
    rw [← ht] at hs
    simpa [headOk] using hs

/-- On an initial segment of collapsed text, cleanText only right-trims,
the result is again an initial segment, and it is collapsed. -/
theorem cleanText_of_prefOf {x : List Char} (hx : collapsedB x = true) :
    ∀ p, PrefOf p x →
      cleanText p = trimRightWs p ∧ PrefOf (trimRightWs p) p ∧ collapsedB (trimRightWs p) = true := by
  intro p hp
  simp only [collapsedB, Bool.and_eq_true] at hx
  obtain ⟨⟨⟨hws, hadj⟩, hhead⟩, hlast⟩ := hx
  have hwsp : wsOnlySpace p = true := wsOnlySpace_prefOf hp hws
  have hadjp : noAdjWs p = true := noAdjWs_prefOf hp hadj
  have hheadp : headOk p = true := headOk_prefOf hp hhead
  have hclean : cleanText p = trimRightWs p := by
    rw [cleanText, squeezeWs_id p hwsp hadjp, trimLeftWs_id p hheadp]
  have hpref : PrefOf (trimRightWs p) p := trimRightWs_prefOf p
  refine ⟨hclean, hpref, ?_⟩
  simp only [collapsedB, Bool.and_eq_true]
  exact ⟨⟨⟨wsOnlySpace_prefOf hpref hwsp, noAdjWs_prefOf hpref hadjp⟩,
    headOk_prefOf hpref hheadp⟩, trimRightWs_lastOk p⟩

/-- cleanText is the identity on collapsed text. -/
theorem cleanText_id {s : List Char} (h : collapsedB s = true) : cleanText s = s := by
  obtain ⟨hc, -, -⟩ := cleanText_of_prefOf h s ⟨[], List.append_nil s⟩
  rw [hc]
  have hlast : lastOk s = true := by
    simp only [collapsedB, Bool.and_eq_true] at h
    exact h.2
  exact trimRightWs_id s hlast

/-- Every boilerplate marker is a nonempty literal. -/
theorem commentMarkers_ne_nil : ∀ m ∈ commentMarkers, m ≠ [] := by decide

/-- C7: the boilerplate transformation (sequential pattern truncation
followed by whitespace collapsing) is idempotent on whitespace-collapsed
input text. -/
theorem c7_theorem (x : List Char) (h : collapsedB x = true) :
    boilerStrip (boilerStrip x) = boilerStrip x := by
  have hpy : PrefOf (stripAll commentMarkers x) x := stripAll_prefOf commentMarkers x
  obtain ⟨hce, hpz, hcz⟩ := cleanText_of_prefOf h (stripAll commentMarkers x) hpy
  have hbx : boilerStrip x = trimRightWs (stripAll commentMarkers x) := by
    rw [boilerStrip, hce]
  have hnoinf : ∀ m ∈ commentMarkers, ¬ InfOf m (trimRightWs (stripAll commentMarkers x)) := by
    intro m hm hinf
    exact stripAll_noInf commentMarkers x m hm (commentMarkers_ne_nil m hm)
      (infOf_of_prefOf hinf hpz)
  have hsz : stripAll commentMarkers (trimRightWs (stripAll commentMarkers x))
      = trimRightWs (stripAll commentMarkers x) := stripAll_id commentMarkers _ hnoinf
  rw [hbx, boilerStrip, hsz, cleanText_id hcz]

/-- C7 witness: the transformation at a concrete collapsed text containing
a boilerplate marker. -/
theorem c7_witness :
    collapsedB exC7Text = true
    ∧ boilerStrip (boilerStrip exC7Text) = boilerStrip exC7Text :=
  ⟨by decide, c7_theorem exC7Text (by decide)⟩

end Crawler
